import Mathlib

/-!
Verification of the benchmark orchestration and domain-problem resolution
engine of `benchmark_pddl.py`.

The Python source is shallowly embedded: the filesystem is an explicit
association list from absolute path to optional content (`none` models a
file that exists but cannot be read, e.g. a permission or encoding error;
a path absent from the list does not exist).  All string functions are
written over `List Char` with structural recursion so that every
definition evaluates inside the kernel.
-/

namespace PddlBench

/-- Decidable equality for `Except`, used to evaluate the fallible
embeddings on concrete inputs. -/
instance {ε α : Type} [DecidableEq ε] [DecidableEq α] : DecidableEq (Except ε α) := fun a b =>
  match a, b with
  | .ok x, .ok y =>
    if h : x = y then .isTrue (by rw [h])
    else .isFalse (by intro hc; cases hc; exact h rfl)
  | .error x, .error y =>
    if h : x = y then .isTrue (by rw [h])
    else .isFalse (by intro hc; cases hc; exact h rfl)
  | .ok _, .error _ => .isFalse (by intro hc; cases hc)
  | .error _, .ok _ => .isFalse (by intro hc; cases hc)

/-! ### Character and string utilities -/

/-- ASCII whitespace as recognised by the Python `\s` class and `str.strip`
(space, tab, newline, carriage return, vertical tab, form feed). -/
def isSpaceCh (c : Char) : Bool :=
  c == ' ' || c == '\t' || c == '\n' || c == '\r' ||
  c == Char.ofNat 11 || c == Char.ofNat 12

/-- `startsList p l` holds when `p` is an initial segment of `l`. -/
def startsList : List Char → List Char → Bool
  | [], _ => true
  | _ :: _, [] => false
  | a :: as, b :: bs => a == b && startsList as bs

/-- The Python substring test `pat in s` (contiguous substring). -/
def hasSub (pat : List Char) : List Char → Bool
  | [] => startsList pat []
  | c :: cs => startsList pat (c :: cs) || hasSub pat cs

/-- String-level wrapper for `hasSub`: the Python `pat in s`. -/
def strHasSub (s pat : String) : Bool := hasSub pat.data s.data

/-- Python `int()` on a string of decimal digits. -/
def digitsToNat (ds : List Char) : Nat :=
  ds.foldl (fun a c => a * 10 + (c.toNat - '0'.toNat)) 0

/-- Python `str.strip()`: remove leading and trailing whitespace. -/
def pyStrip (s : List Char) : List Char :=
  ((s.dropWhile isSpaceCh).reverse.dropWhile isSpaceCh).reverse

/-- Python `s.replace(".pddl", "")`: delete every (left-to-right,
non-overlapping) occurrence of the literal `.pddl`. -/
def replacePddl : List Char → List Char
  | '.' :: 'p' :: 'd' :: 'd' :: 'l' :: rest => replacePddl rest
  | c :: rest => c :: replacePddl rest
  | [] => []

/-! ### POSIX path manipulation (`os.path`) -/

/-- Index of the last `/` in a character list, if any. -/
def lastSlash : List Char → Option Nat
  | [] => none
  | c :: cs =>
    match lastSlash cs with
    | some i => some (i + 1)
    | none => if c == '/' then some 0 else none

/-- `os.path.dirname` for POSIX paths: everything up to the last slash,
with trailing slashes stripped unless the head is all slashes. -/
def dirName (p : String) : String :=
  match lastSlash p.data with
  | none => ""
  | some i =>
    let head := p.data.take (i + 1)
    if head.all (· == '/') then ⟨head⟩
    else ⟨(head.reverse.dropWhile (· == '/')).reverse⟩

/-- `os.path.basename` for POSIX paths: everything after the last slash. -/
def baseName (p : String) : String :=
  match lastSlash p.data with
  | none => p
  | some i => ⟨p.data.drop (i + 1)⟩

/-- `os.path.join` for POSIX paths (two arguments). -/
def joinPath (d n : String) : String :=
  if startsList ['/'] n.data then n
  else if d = "" then n
  else if d.data.getLast? = some '/' then d ++ n
  else d ++ "/" ++ n

/-! ### Filesystem model and `glob` -/

/-- A filesystem: absolute path ↦ content.  `none` content models a file
that exists but whose read raises (permission/encoding error); a path not
in the list does not exist.  The list order models the OS directory
enumeration order seen by `glob.glob`. -/
abbrev FS : Type := List (String × Option String)

/-- `os.path.exists` (also used for `os.path.isfile`: every entry of the
model is a regular file). -/
def fsExists (fs : FS) (p : String) : Bool :=
  (List.lookup p fs).isSome

/-- `open(p).read()`: `none` when the path is missing or unreadable. -/
def fsRead (fs : FS) (p : String) : Option String :=
  (List.lookup p fs).bind id

/-- All suffixes of a character list (longest first). -/
def tailsOf : List Char → List (List Char)
  | [] => [[]]
  | c :: cs => (c :: cs) :: tailsOf cs

/-- `fnmatch`-style matching for the patterns the source uses: literal
characters plus the `*` wildcard (the source never uses `?` or `[...]`). -/
def wildMatch : List Char → List Char → Bool
  | [], s => s.isEmpty
  | p :: ps, s =>
    if p == '*' then (tailsOf s).any (fun t => wildMatch ps t)
    else
      match s with
      | [] => false
      | c :: cs => p == c && wildMatch ps cs

/-- `glob` filename matching, including the rule that a leading `*` does
not match a name starting with a dot. -/
def globMatch (pat name : String) : Bool :=
  if startsList ['.'] name.data && !(startsList ['.'] pat.data) then false
  else wildMatch pat.data name.data

/-- `glob.glob(os.path.join(dir, pattern))`: the files of `dir` whose
basename matches `pattern`, in OS enumeration (model list) order. -/
def globFiles (fs : FS) (dir pattern : String) : List String :=
  (fs.filter
    (fun e => dirName e.1 == dir && globMatch pattern (baseName e.1))).map (·.1)

/-! ### Domain-name extraction (the `re.search` of the domain declaration regex) -/

/-- Index of the first `)` in a character list. -/
def firstClose : List Char → Option Nat
  | [] => none
  | c :: cs => if c == ')' then some 0 else (firstClose cs).map (· + 1)

/-- Continuation of the regex `\(:domain\s+([^)]+)\)` after the literal
`(:domain` has matched: `\s+` (greedy) then the capture `([^)]+)` (greedy,
backtracking) then `)`, followed by the `.strip()` of the capture.
A match requires the next character to be whitespace and the first `)` to
sit at index ≥ 2; greediness puts the capture between the end of the
maximal whitespace run and that `)` (backtracking lends the capture the
last whitespace character when nothing else remains). -/
def domainCapture (rest : List Char) : Option (List Char) :=
  match rest with
  | [] => none
  | c :: _ =>
    if isSpaceCh c then
      match firstClose rest with
      | some k =>
        if 2 ≤ k then
          let a := (rest.takeWhile isSpaceCh).length
          let start := min a (k - 1)
          some (pyStrip ((rest.drop start).take (k - start)))
        else none
      | none => none
    else none

/-- `re.search` for `\(:domain\s+([^)]+)\)`: try each start position left
to right; at a position where the literal `(:domain` matches but the rest
of the pattern does not, resume the scan one character further on. -/
def searchDomain : List Char → Option (List Char)
  | [] => none
  | c :: cs =>
    if startsList "(:domain".data (c :: cs) then
      match domainCapture ((c :: cs).drop 8) with
      | some cap => some cap
      | none => searchDomain cs
    else searchDomain cs

/-- `read_domain_name_from_file`: extract the declared domain name from a
PDDL file; any read failure or missing declaration yields `none`. -/
def read_domain_name_from_file (fs : FS) (path : String) : Option String :=
  match fsRead fs path with
  | some content => (searchDomain content.data).map (fun l => ⟨l⟩)
  | none => none

/-! ### Domain Resolver (`find_domain_file_for_problem`)

The body of `find_domain_file_for_problem` re-reads the problem file with
the identical regex as `read_domain_name_from_file`, so the embedding
shares that definition.  Python truthiness of `domain_name` (`None` and
the empty string are falsy) appears as the explicit `n = ""` tests. -/

/-- `variants`: the declared name, if truthy, plus the
blocksworld/blockworld synonym expansions. -/
def mkVariants : Option String → List String
  | none => []
  | some n =>
    if n = "" then []
    else if n = "blocksworld" then [n, "blockworld"]
    else if n = "blockworld" then [n, "blocksworld"]
    else [n]

/-- `patterns`: the conventional domain-file name list, with the falsy
declared-name entry filtered out (`[p for p in patterns if p]`). -/
def mkPatterns (domain_name : Option String) (problem_dir : String) : List String :=
  "domain.pddl" ::
    ((match domain_name with
      | some n => if n = "" then [] else [n ++ ".pddl"]
      | none => []) ++
     ["*domain*.pddl", "*.domain.pddl", baseName problem_dir ++ ".pddl"])

/-- The `for variant in variants` loop: return the first
`os.path.join(dir, variant + ".pddl")` that exists. -/
def lookupVariants (fs : FS) (dir : String) (vs : List String) : Option String :=
  vs.findSome? (fun v =>
    let fp := joinPath dir (v ++ ".pddl")
    if fsExists fs fp then some fp else none)

/-- The `for pattern in patterns` loop: return `candidates[0]` of the
first pattern whose glob in `dir` is non-empty. -/
def lookupPatterns (fs : FS) (dir : String) (ps : List String) : Option String :=
  ps.findSome? (fun pat => (globFiles fs dir pat).head?)

/-- The structural fallback: scan every `*.pddl` in the directory
of the problem other than the problem file itself for one whose content has an
`:action` marker and no `(:goal` marker; an unreadable candidate is
skipped (`except Exception: pass`). -/
def structuralScan (fs : FS) (dir problem_file : String) : Option String :=
  (globFiles fs dir "*.pddl").findSome? (fun p =>
    if p != problem_file && fsExists fs p then
      match fsRead fs p with
      | some c => if strHasSub c ":action" && !(strHasSub c "(:goal") then some p else none
      | none => none
    else none)

/-- `find_domain_file_for_problem`: priority order is declared-name
variants in the directory of the problem, then conventional patterns there,
then the structural scan there, then the conventional patterns one
directory level up, then `None`. -/
def find_domain_file_for_problem (fs : FS) (problem_file : String) : Option String :=
  let problem_dir := dirName problem_file
  let domain_name := read_domain_name_from_file fs problem_file
  match lookupVariants fs problem_dir (mkVariants domain_name) with
  | some fp => some fp
  | none =>
    match lookupPatterns fs problem_dir (mkPatterns domain_name problem_dir) with
    | some fp => some fp
    | none =>
      match structuralScan fs problem_dir problem_file with
      | some fp => some fp
      | none => lookupPatterns fs (dirName problem_dir) (mkPatterns domain_name problem_dir)

/-! ### File Classifier (`is_problem_file`) -/

/-- `is_problem_file`: read at most the first 2000 characters
(`f.read(2000)`) and require all three structural markers; any read
failure yields `false`. -/
def is_problem_file (fs : FS) (path : String) : Bool :=
  match fsRead fs path with
  | some content =>
    let prefix2000 : String := ⟨content.data.take 2000⟩
    strHasSub prefix2000 "(:goal" && strHasSub prefix2000 "(define" &&
      strHasSub prefix2000 "problem"
  | none => false

/-! ### Benchmark Runner (`run_benchmark`)

The external planner invocation is the one genuinely external effect; it
is embedded as an explicit outcome parameter (what `subprocess.run`
did) together with the measured wall-clock duration.  A Python value
stored in the result dict is one of int / float / str / bool. -/

/-- A Python value as stored in the `stats` dict. -/
inductive PyVal where
  | int (n : ℤ)
  | float (q : ℚ)
  | str (s : String)
  | bool (b : Bool)
  deriving DecidableEq

/-- What `subprocess.run` did: returned normally with captured output,
raised `TimeoutExpired`, or raised some other exception `e`. -/
inductive ProcOutcome where
  | done (stdout stderr : String)
  | timedOut
  | raised (msg : String)
  deriving DecidableEq

/-- A record is a Python dict in insertion order. -/
abbrev Record : Type := List (String × PyVal)

/-- The key list of a record, in insertion order (`dict.keys()`). -/
def recKeys (r : Record) : List String := r.map Prod.fst

/-- Field access `r[k]` / `r.get(k)` on a record. -/
def recLookup (r : Record) (k : String) : Option PyVal := List.lookup k r

/-- `re.search(r"(\d+) Nodes expanded", s)` (and the analogous pattern
with any literal starting with a non-digit): scan start positions left to
right; at a digit, greedy `\d+` takes the maximal digit run and the
literal must follow it (a shorter, backtracked digit prefix would leave
the next character a digit, which cannot begin the literal, so
backtracking never helps); on failure resume one character on. -/
def reSearchNumLit (lit : List Char) : List Char → Option Nat
  | [] => none
  | c :: cs =>
    if c.isDigit then
      if startsList lit (cs.dropWhile Char.isDigit) then
        some (digitsToNat (c :: cs.takeWhile Char.isDigit))
      else reSearchNumLit lit cs
    else reSearchNumLit lit cs

/-- `re.search(r"Plan length: (\d+)", s)`: scan start positions left to
right for the literal followed by at least one digit; the capture is the
maximal digit run after the literal. -/
def reSearchLitNum (lit : List Char) : List Char → Option Nat
  | [] => none
  | c :: cs =>
    if startsList lit (c :: cs) then
      match ((c :: cs).drop lit.length).takeWhile Char.isDigit with
      | [] => reSearchLitNum lit cs
      | run => some (digitsToNat run)
    else reSearchLitNum lit cs

/-- `os.path.basename(path).replace(".pddl", "")`. -/
def fileLabel (path : String) : String :=
  ⟨replacePddl (baseName path).data⟩

/-- `search or "breadth_first_search"` / `heuristic or "None"`: Python
truthiness of a string is non-emptiness. -/
def orDefault (s d : String) : String := if s = "" then d else s

/-- `run_benchmark`: build the result dict for each of the three
branches (normal return, `TimeoutExpired`, other exception).  `elapsed`
is the measured `time.time() - start_time` of the branch taken. -/
def run_benchmark (domain_file problem_file search heuristic : String)
    (outcome : ProcOutcome) (elapsed : ℚ) : Record :=
  let dom := fileLabel domain_file
  let prob := fileLabel problem_file
  let searchLbl := orDefault search "breadth_first_search"
  let heurLbl := orDefault heuristic "None"
  match outcome with
  | .done stdout _stderr =>
    [("domain", .str dom), ("problem", .str prob),
     ("search", .str searchLbl), ("heuristic", .str heurLbl),
     ("success", .bool (strHasSub stdout "Goal reached")),
     ("runtime", .float elapsed),
     ("expanded_nodes", .int
       (match reSearchNumLit " Nodes expanded".data stdout.data with
        | some n => (n : ℤ) | none => 0)),
     ("plan_length", .int
       (match reSearchLitNum "Plan length: ".data stdout.data with
        | some n => (n : ℤ) | none => 0))]
  | .timedOut =>
    [("domain", .str dom), ("problem", .str prob),
     ("search", .str searchLbl), ("heuristic", .str heurLbl),
     ("success", .bool false),
     ("runtime", .float elapsed),
     ("expanded_nodes", .str "timeout"),
     ("plan_length", .str "timeout")]
  | .raised msg =>
    [("domain", .str dom), ("problem", .str prob),
     ("search", .str searchLbl), ("heuristic", .str heurLbl),
     ("success", .bool false),
     ("runtime", .float elapsed),
     ("expanded_nodes", .str ("error: " ++ msg)),
     ("plan_length", .str ("error: " ++ msg))]

/-! ### Corpus Walker problem ordering (`problem_sort_key` and `.sort`) -/

/-- A Python sort key as returned by `problem_sort_key`: an int or a str. -/
inductive SortKey where
  | int (n : Nat)
  | str (s : String)
  deriving DecidableEq

/-- The first element of `re.findall` for the digit-run regex: the first maximal digit run, if any. -/
def firstNumberTok : List Char → Option (List Char)
  | [] => none
  | c :: cs =>
    if c.isDigit then some (c :: cs.takeWhile Char.isDigit)
    else firstNumberTok cs

/-- `problem_sort_key`: `int` of the first digit run of the basename, or
the basename itself when it has no digit. -/
def problem_sort_key (path : String) : SortKey :=
  let filename := baseName path
  match firstNumberTok filename.data with
  | some ds => .int (digitsToNat ds)
  | none => .str filename

/-- The Python `<=` on homogeneous sort keys (int ≤ int, lexicographic
str ≤ str).  The cross-type cases are given an arbitrary total order
(ints before strs); they are never observable because `sortProblems`
raises on a mixed key list, mirroring the Python `TypeError`. -/
def sortKeyLe : SortKey → SortKey → Prop
  | .int m, .int n => m ≤ n
  | .str s, .str t => s ≤ t
  | .int _, .str _ => True
  | .str _, .int _ => False

instance : DecidableRel sortKeyLe := fun a b => by
  cases a <;> cases b <;> simp only [sortKeyLe] <;> infer_instance

/-- Order on problem-file paths induced by `problem_sort_key`. -/
def fileKeyLe (a b : String) : Prop :=
  sortKeyLe (problem_sort_key a) (problem_sort_key b)

instance : DecidableRel fileKeyLe := fun a b => by
  unfold fileKeyLe; infer_instance

/-- Whether `problem_sort_key` yields an int key. -/
def hasIntKey (path : String) : Bool :=
  match problem_sort_key path with
  | .int _ => true
  | .str _ => false

/-- `problem_files.sort(key=problem_sort_key)`: a stable sort by key.
When the keys mix ints and strs, the Python sort must at some point compare
an int with a str and raises `TypeError` (the error case); on a
homogeneous key list the result is the stable sort, here via
`List.insertionSort` (stable sorts by a total preorder agree). -/
def sortProblems (files : List String) : Except Unit (List String) :=
  if files.all hasIntKey || files.all (fun f => !hasIntKey f) then
    .ok (List.insertionSort fileKeyLe files)
  else
    .error ()

/-! ### Result Sink (`csv.DictWriter` over `results`) -/

/-- `csv.DictWriter._dict_to_list` with the default
`extrasaction="raise"` and `restval=""`: a key outside `fieldnames`
raises `ValueError`; a missing key is silently filled with `""`. -/
def dictToRow (fieldnames : List String) (row : Record) : Except Unit (List PyVal) :=
  if row.any (fun kv => !(fieldnames.contains kv.1)) then
    .error ()
  else
    .ok (fieldnames.map (fun k => (recLookup row k).getD (.str "")))

/-- `writer.writerows(results)`: write rows in order, stopping at the
first row whose conversion raises. -/
def writerows (f : Record → Except Unit (List PyVal)) :
    List Record → Except Unit (List (List PyVal))
  | [] => .ok []
  | r :: rs =>
    match f r with
    | .error e => .error e
    | .ok v =>
      match writerows f rs with
      | .error e => .error e
      | .ok vs => .ok (v :: vs)

/-- The persistence step of `main` (lines 349–355): with a non-empty
result list, take the column order from the keys of the first record and write
one row per record; the first schema violation aborts.  An empty result
list writes nothing (`"No results collected."`). -/
def writeResults (records : List Record) : Except Unit (List (List PyVal)) :=
  match records with
  | [] => .ok []
  | r0 :: _ => writerows (dictToRow (recKeys r0)) records

/-! ### The unresolved-problem branch of `main` (lines 277–299) -/

/-- What `main` does for one problem file after calling the resolver
(lines 277–299).  When the resolver fails and the declared domain name is
`"blocksworld"`, the condition on line 282 evaluates
`os.path.join(problem_dir, "blockworld.pddl")` — but `problem_dir` is not
a name bound anywhere in `main` (it is local to
`find_domain_file_for_problem`), so Python raises `NameError`, which
propagates out of `main` and aborts the whole batch.  Any other failed
resolution prints the two warning lines and `continue`s. -/
def mainResolveStep (fs : FS) (problem_file : String) :
    Except String (Option String) :=
  match find_domain_file_for_problem fs problem_file with
  | some df => .ok (some df)
  | none =>
    let domain_name := read_domain_name_from_file fs problem_file
    if domain_name = some "blocksworld" then
      .error "NameError: name problem_dir is not defined"
    else
      .ok none

/-! ### Outcome-class predicates for Runner records -/

/-- A record of the normal-completion class: both metrics are Python
ints. -/
def isNormalRec (r : Record) : Prop :=
  ∃ m n : ℤ, recLookup r "expanded_nodes" = some (.int m) ∧
    recLookup r "plan_length" = some (.int n)

/-- A record of the timeout class: `success` is false and both metrics
carry the `"timeout"` sentinel. -/
def isTimeoutRec (r : Record) : Prop :=
  recLookup r "success" = some (.bool false) ∧
  recLookup r "expanded_nodes" = some (.str "timeout") ∧
  recLookup r "plan_length" = some (.str "timeout")

/-- A record of the invocation-error class: `success` is false and both
metrics carry an error-tagged string sentinel. -/
def isErrorRec (r : Record) : Prop :=
  ∃ msg, recLookup r "success" = some (.bool false) ∧
    recLookup r "expanded_nodes" = some (.str ("error: " ++ msg)) ∧
    recLookup r "plan_length" = some (.str ("error: " ++ msg))

/-- The Runner contract: the record is in exactly one outcome class, its
runtime is a non-negative float, and a true `success` forces integer
metrics. -/
def runnerContract (r : Record) : Prop :=
  ((isNormalRec r ∧ ¬ isTimeoutRec r ∧ ¬ isErrorRec r) ∨
   (¬ isNormalRec r ∧ isTimeoutRec r ∧ ¬ isErrorRec r) ∨
   (¬ isNormalRec r ∧ ¬ isTimeoutRec r ∧ isErrorRec r)) ∧
  (∃ q : ℚ, recLookup r "runtime" = some (.float q) ∧ 0 ≤ q) ∧
  (recLookup r "success" = some (.bool true) → isNormalRec r)

/-- The eight columns of a Runner record, in dict insertion order. -/
def benchFields : List String :=
  ["domain", "problem", "search", "heuristic", "success", "runtime",
   "expanded_nodes", "plan_length"]

/-! ## Helper lemmas -/

lemma lookupVariants_cons_of_exists (fs : FS) (dir n : String) (rest : List String)
    (h : fsExists fs (joinPath dir (n ++ ".pddl")) = true) :
    lookupVariants fs dir (n :: rest) = some (joinPath dir (n ++ ".pddl")) := by
  simp [lookupVariants, List.findSome?_cons, h]

lemma lookupVariants_cons_of_missing (fs : FS) (dir n : String) (rest : List String)
    (h : fsExists fs (joinPath dir (n ++ ".pddl")) = false) :
    lookupVariants fs dir (n :: rest) = lookupVariants fs dir rest := by
  simp [lookupVariants, List.findSome?_cons, h]

lemma mkVariants_head (name : String) (h : name ≠ "") :
    ∃ rest, mkVariants (some name) = name :: rest := by
  unfold mkVariants
  by_cases hb : name = "blocksworld" <;> by_cases hw : name = "blockworld" <;>
    simp [h, hb, hw]

lemma errStr_ne_timeout (msg : String) : "error: " ++ msg ≠ "timeout" := by
  intro h
  have h2 : ("error: " ++ msg).data = "timeout".data := congrArg String.data h
  rw [String.data_append] at h2
  simp [String.data] at h2

instance : IsTotal SortKey sortKeyLe where
  total a b := by
    cases a <;> cases b <;> simp only [sortKeyLe]
    · exact Nat.le_total _ _
    · exact Or.inl trivial
    · exact Or.inr trivial
    · exact le_total _ _

instance : IsTrans SortKey sortKeyLe where
  trans a b c hab hbc := by
    cases a <;> cases b <;> cases c <;> simp only [sortKeyLe] at * <;>
      first
        | trivial
        | exact Nat.le_trans hab hbc
        | exact le_trans hab hbc

instance : IsTotal String fileKeyLe where
  total _ _ := IsTotal.total (r := sortKeyLe) _ _

instance : IsTrans String fileKeyLe where
  trans _ _ _ hab hbc := IsTrans.trans (r := sortKeyLe) _ _ _ hab hbc

lemma dictToRow_ok (fns : List String) (r : Record)
    (h : ∀ kv ∈ r, kv.1 ∈ fns) :
    dictToRow fns r = .ok (fns.map (fun k => (recLookup r k).getD (.str ""))) := by
  have hc : r.any (fun kv => !(fns.contains kv.1)) = false := by
    rw [List.any_eq_false]
    intro kv hkv
    have h3 : fns.contains kv.1 = true := List.elem_iff.mpr (h kv hkv)
    rw [h3]
    decide
  unfold dictToRow
  rw [hc]
  rfl

lemma dictToRow_error (fns : List String) (r : Record)
    (h : ∃ kv ∈ r, kv.1 ∉ fns) :
    dictToRow fns r = .error () := by
  obtain ⟨kv, hkv, hmem⟩ := h
  have h3 : fns.contains kv.1 = false :=
    Bool.eq_false_iff.mpr (fun hb => hmem (List.elem_iff.mp hb))
  have hc : r.any (fun kv => !(fns.contains kv.1)) = true := by
    rw [List.any_eq_true]
    exact ⟨kv, hkv, by rw [h3]; rfl⟩
  unfold dictToRow
  rw [hc]
  rfl

lemma writerows_ok (fns : List String) (l : List Record)
    (h : ∀ r ∈ l, ∀ kv ∈ r, kv.1 ∈ fns) :
    writerows (dictToRow fns) l
      = .ok (l.map (fun r => fns.map (fun k => (recLookup r k).getD (.str "")))) := by
  induction l with
  | nil => rfl
  | cons r rs ih =>
    rw [writerows, dictToRow_ok fns r (h r (List.mem_cons_self r rs)),
      ih (fun r2 h2 => h r2 (List.mem_cons_of_mem r h2))]
    simp

lemma writerows_error (f : Record → Except Unit (List PyVal)) (l : List Record)
    (h : ∃ r ∈ l, f r = .error ()) :
    writerows f l = .error () := by
  induction l with
  | nil => simp at h
  | cons r rs ih =>
    obtain ⟨r2, hr2, herr⟩ := h
    rw [List.mem_cons] at hr2
    rcases hr2 with rfl | hr2
    · rw [writerows, herr]
    · rw [writerows]
      cases hfr : f r with
      | error e => cases e; rfl
      | ok v => rw [ih ⟨r2, hr2, herr⟩]

/-! ## Claim theorems -/

/-- C1: the claim says an unresolved problem never raises an exception
that aborts the batch, regardless of the declared domain name.  The code
violates this: for a problem declaring `(:domain blocksworld)` whose
resolution fails, line 282 of `main` evaluates the unbound name
`problem_dir` and raises `NameError`, aborting the whole corpus walk.
For any other declared name the walk does skip and continue
(`.ok none`). -/
theorem c1_unresolved_blocksworld_aborts_batch :
    find_domain_file_for_problem
      [("/bench/blocks/p1.pddl",
        some "(define (problem p1) (:domain blocksworld) (:goal (on a b)))")]
      "/bench/blocks/p1.pddl" = none ∧
    mainResolveStep
      [("/bench/blocks/p1.pddl",
        some "(define (problem p1) (:domain blocksworld) (:goal (on a b)))")]
      "/bench/blocks/p1.pddl"
      = .error "NameError: name problem_dir is not defined" ∧
    mainResolveStep
      [("/bench/g/p1.pddl",
        some "(define (problem p1) (:domain gripper) (:goal (on a b)))")]
      "/bench/g/p1.pddl" = .ok none := by
  refine ⟨by decide, by decide, by decide⟩

/-- C2: a problem file with an explicit truthy `(:domain X)` declaration
and a co-located `X.pddl` resolves to exactly that path; the declared
name is the head of the variant list, which is consulted before every
fallback, so no later rule can override it. -/
theorem c2_declared_name_priority (fs : FS) (pf name : String)
    (h1 : read_domain_name_from_file fs pf = some name) (h2 : name ≠ "")
    (h3 : fsExists fs (joinPath (dirName pf) (name ++ ".pddl")) = true) :
    find_domain_file_for_problem fs pf
      = some (joinPath (dirName pf) (name ++ ".pddl")) := by
  obtain ⟨rest, hrest⟩ := mkVariants_head name h2
  simp only [find_domain_file_for_problem, h1, hrest,
    lookupVariants_cons_of_exists fs (dirName pf) name rest h3]

/-- Witness for C2: a concrete problem declaring `gripper` with a
co-located `gripper.pddl`. -/
theorem c2_declared_name_priority_witness :
    find_domain_file_for_problem
      [("/bench/b/p1.pddl",
        some "(define (problem p1) (:domain gripper) (:goal (on a b)))"),
       ("/bench/b/gripper.pddl", some "(define (domain gripper) (:action move))")]
      "/bench/b/p1.pddl"
      = some (joinPath (dirName "/bench/b/p1.pddl") ("gripper" ++ ".pddl")) ∧
    find_domain_file_for_problem
      [("/bench/b/p1.pddl",
        some "(define (problem p1) (:domain gripper) (:goal (on a b)))"),
       ("/bench/b/gripper.pddl", some "(define (domain gripper) (:action move))")]
      "/bench/b/p1.pddl" = some "/bench/b/gripper.pddl" :=
  ⟨c2_declared_name_priority _ _ "gripper" (by decide) (by decide) (by decide),
   by decide⟩

/-- C3: every Runner record lies in exactly one of the three outcome
classes, its runtime equals the measured non-negative elapsed time, and
`success = true` forces integer metrics (never a sentinel).  `elapsed` is
the wall-clock duration measured by `time.time()` differences, assumed
non-negative (monotone clock). -/
theorem c3_runner_outcome_classes (df pf se he : String) (oc : ProcOutcome)
    (el : ℚ) (hel : 0 ≤ el) :
    runnerContract (run_benchmark df pf se he oc el) := by
  cases oc with
  | done out err =>
    refine ⟨Or.inl ⟨⟨_, _, rfl, rfl⟩, ?_, ?_⟩, ⟨el, rfl, hel⟩,
      fun _ => ⟨_, _, rfl, rfl⟩⟩
    · rintro ⟨-, h2, -⟩
      rw [show recLookup (run_benchmark df pf se he (.done out err) el) "expanded_nodes"
        = some (.int (match reSearchNumLit " Nodes expanded".data out.data with
          | some n => (n : ℤ) | none => 0)) from rfl] at h2
      simp at h2
    · rintro ⟨msg, -, h2, -⟩
      rw [show recLookup (run_benchmark df pf se he (.done out err) el) "expanded_nodes"
        = some (.int (match reSearchNumLit " Nodes expanded".data out.data with
          | some n => (n : ℤ) | none => 0)) from rfl] at h2
      simp at h2
  | timedOut =>
    refine ⟨Or.inr (Or.inl ⟨?_, ⟨rfl, rfl, rfl⟩, ?_⟩), ⟨el, rfl, hel⟩, ?_⟩
    · rintro ⟨m, n, h2, -⟩
      rw [show recLookup (run_benchmark df pf se he .timedOut el) "expanded_nodes"
        = some (.str "timeout") from rfl] at h2
      simp at h2
    · rintro ⟨msg, -, h2, -⟩
      rw [show recLookup (run_benchmark df pf se he .timedOut el) "expanded_nodes"
        = some (.str "timeout") from rfl] at h2
      simp at h2
      exact errStr_ne_timeout msg h2.symm
    · intro h
      rw [show recLookup (run_benchmark df pf se he .timedOut el) "success"
        = some (.bool false) from rfl] at h
      simp at h
  | raised msg =>
    refine ⟨Or.inr (Or.inr ⟨?_, ?_, ⟨msg, rfl, rfl, rfl⟩⟩), ⟨el, rfl, hel⟩, ?_⟩
    · rintro ⟨m, n, h2, -⟩
      rw [show recLookup (run_benchmark df pf se he (.raised msg) el) "expanded_nodes"
        = some (.str ("error: " ++ msg)) from rfl] at h2
      simp at h2
    · rintro ⟨-, h2, -⟩
      rw [show recLookup (run_benchmark df pf se he (.raised msg) el) "expanded_nodes"
        = some (.str ("error: " ++ msg)) from rfl] at h2
      simp at h2
      exact errStr_ne_timeout msg h2
    · intro h
      rw [show recLookup (run_benchmark df pf se he (.raised msg) el) "success"
        = some (.bool false) from rfl] at h
      simp at h

/-- Witness for C3: the scenario with stdout reporting a reached goal,
42 expanded nodes and plan length 7. -/
theorem c3_runner_outcome_classes_witness :
    runnerContract (run_benchmark "/d/dom.pddl" "/d/pb1.pddl" "astar" "hmax"
      (.done "Goal reached\n42 Nodes expanded\nPlan length: 7" "") 1) ∧
    recLookup (run_benchmark "/d/dom.pddl" "/d/pb1.pddl" "astar" "hmax"
      (.done "Goal reached\n42 Nodes expanded\nPlan length: 7" "") 1)
      "expanded_nodes" = some (.int 42) ∧
    recLookup (run_benchmark "/d/dom.pddl" "/d/pb1.pddl" "astar" "hmax"
      (.done "Goal reached\n42 Nodes expanded\nPlan length: 7" "") 1)
      "plan_length" = some (.int 7) ∧
    recLookup (run_benchmark "/d/dom.pddl" "/d/pb1.pddl" "astar" "hmax"
      (.done "Goal reached\n42 Nodes expanded\nPlan length: 7" "") 1)
      "success" = some (.bool true) :=
  ⟨c3_runner_outcome_classes _ _ _ _ _ _ (by norm_num),
   by decide, by decide, by decide⟩

/-- C5: the blocksworld/blockworld synonym expansion is symmetric: a
problem declaring either name resolves against a co-located file named
the other way when only that file exists. -/
theorem c5_synonym_symmetry :
    (∀ (fs : FS) (pf : String),
      read_domain_name_from_file fs pf = some "blocksworld" →
      fsExists fs (joinPath (dirName pf) "blocksworld.pddl") = false →
      fsExists fs (joinPath (dirName pf) "blockworld.pddl") = true →
      find_domain_file_for_problem fs pf
        = some (joinPath (dirName pf) "blockworld.pddl")) ∧
    (∀ (fs : FS) (pf : String),
      read_domain_name_from_file fs pf = some "blockworld" →
      fsExists fs (joinPath (dirName pf) "blockworld.pddl") = false →
      fsExists fs (joinPath (dirName pf) "blocksworld.pddl") = true →
      find_domain_file_for_problem fs pf
        = some (joinPath (dirName pf) "blocksworld.pddl")) := by
  constructor
  · intro fs pf h1 h2 h3
    have hv : mkVariants (some "blocksworld") = ["blocksworld", "blockworld"] := by
      decide
    have e2 : ("blocksworld" : String) ++ ".pddl" = "blocksworld.pddl" := by decide
    have e3 : ("blockworld" : String) ++ ".pddl" = "blockworld.pddl" := by decide
    simp only [find_domain_file_for_problem, h1, hv,
      lookupVariants_cons_of_missing fs (dirName pf) "blocksworld" _
        (by rw [e2]; exact h2),
      lookupVariants_cons_of_exists fs (dirName pf) "blockworld" _
        (by rw [e3]; exact h3), e3]
  · intro fs pf h1 h2 h3
    have hv : mkVariants (some "blockworld") = ["blockworld", "blocksworld"] := by
      decide
    have e2 : ("blockworld" : String) ++ ".pddl" = "blockworld.pddl" := by decide
    have e3 : ("blocksworld" : String) ++ ".pddl" = "blocksworld.pddl" := by decide
    simp only [find_domain_file_for_problem, h1, hv,
      lookupVariants_cons_of_missing fs (dirName pf) "blockworld" _
        (by rw [e2]; exact h2),
      lookupVariants_cons_of_exists fs (dirName pf) "blocksworld" _
        (by rw [e3]; exact h3), e3]

/-- Witness for C5: both synonym directions on concrete one-file
directories. -/
theorem c5_synonym_symmetry_witness :
    find_domain_file_for_problem
      [("/bench/bw/p1.pddl",
        some "(define (problem p1) (:domain blocksworld) (:goal (on a b)))"),
       ("/bench/bw/blockworld.pddl", some "(define (domain blockworld) (:action pickup))")]
      "/bench/bw/p1.pddl" = some (joinPath (dirName "/bench/bw/p1.pddl") "blockworld.pddl") ∧
    find_domain_file_for_problem
      [("/bench/bw2/p1.pddl",
        some "(define (problem p1) (:domain blockworld) (:goal (on a b)))"),
       ("/bench/bw2/blocksworld.pddl", some "(define (domain blocksworld) (:action pickup))")]
      "/bench/bw2/p1.pddl" = some (joinPath (dirName "/bench/bw2/p1.pddl") "blocksworld.pddl") :=
  ⟨c5_synonym_symmetry.1 _ _ (by decide) (by decide) (by decide),
   c5_synonym_symmetry.2 _ _ (by decide) (by decide) (by decide)⟩

/-- C4 counterexample: with one digit-bearing and one digit-free
filename the sort keys mix int and str, and the sort raises `TypeError`
instead of visiting the files in any order, so the claim fails for this
set of problem files. -/
theorem c4_mixed_keys_counterexample :
    sortProblems ["/d/pb1.pddl", "/d/alpha.pddl"] = .error () := by decide

/-- C4 amended: when the classified problem filenames either all contain
a digit or all lack digits, the walker visits them sorted by
`problem_sort_key` (first embedded numeric token, lexical for digit-free
names); a mixed directory instead raises `TypeError`. -/
theorem c4_homogeneous_sort_amended (files : List String)
    (h : files.all hasIntKey = true ∨ files.all (fun f => !hasIntKey f) = true) :
    ∃ l, sortProblems files = .ok l ∧ List.Perm l files ∧
      List.Sorted fileKeyLe l := by
  refine ⟨List.insertionSort fileKeyLe files, ?_, ?_, ?_⟩
  · unfold sortProblems
    rcases h with h | h <;> simp [h]
  · exact List.perm_insertionSort fileKeyLe files
  · exact List.sorted_insertionSort fileKeyLe files

/-- Witness for C4: the pb2/pb10/pb1 example of the claim is sorted
numerically as pb1, pb2, pb10 (not lexically). -/
theorem c4_homogeneous_sort_amended_witness :
    (∃ l, sortProblems ["/d/pb2.pddl", "/d/pb10.pddl", "/d/pb1.pddl"] = .ok l ∧
      List.Perm l ["/d/pb2.pddl", "/d/pb10.pddl", "/d/pb1.pddl"] ∧
      List.Sorted fileKeyLe l) ∧
    sortProblems ["/d/pb2.pddl", "/d/pb10.pddl", "/d/pb1.pddl"]
      = .ok ["/d/pb1.pddl", "/d/pb2.pddl", "/d/pb10.pddl"] :=
  ⟨c4_homogeneous_sort_amended _ (Or.inl (by decide)), by decide⟩

/-- C6 counterexample: a record missing a field does not abort
persistence; `DictWriter` silently writes the empty-string `restval` for
the missing column.  The first record has the full eight-field schema,
the second lacks `plan_length`, and persistence succeeds. -/
theorem c6_missing_field_counterexample :
    writeResults
      [[("domain", .str "blocks"), ("problem", .str "pb1"), ("search", .str "astar"),
        ("heuristic", .str "hmax"), ("success", .bool true), ("runtime", .float 1),
        ("expanded_nodes", .int 42), ("plan_length", .int 7)],
       [("domain", .str "blocks"), ("problem", .str "pb2"), ("search", .str "astar"),
        ("heuristic", .str "hmax"), ("success", .bool false), ("runtime", .float 2),
        ("expanded_nodes", .int 9)]]
      = .ok
      [[.str "blocks", .str "pb1", .str "astar", .str "hmax", .bool true,
        .float 1, .int 42, .int 7],
       [.str "blocks", .str "pb2", .str "astar", .str "hmax", .bool false,
        .float 2, .int 9, .str ""]] := by decide

/-- C6 amended: the column order is taken from the first record; a
record with an extra field (one outside the first record's field set)
aborts persistence, while a record with missing fields is written with
the empty string in the missing columns rather than aborting. -/
theorem c6_schema_amended (r0 : Record) (rs : List Record) :
    ((∃ r ∈ r0 :: rs, ∃ kv ∈ r, kv.1 ∉ recKeys r0) →
      writeResults (r0 :: rs) = .error ()) ∧
    ((∀ r ∈ r0 :: rs, ∀ kv ∈ r, kv.1 ∈ recKeys r0) →
      writeResults (r0 :: rs)
        = .ok ((r0 :: rs).map (fun r =>
            (recKeys r0).map (fun k => (recLookup r k).getD (.str ""))))) := by
  constructor
  · rintro ⟨r, hr, hkv⟩
    unfold writeResults
    exact writerows_error _ _ ⟨r, hr, dictToRow_error _ _ hkv⟩
  · intro h
    unfold writeResults
    exact writerows_ok _ _ h

/-- Witness for C6: an extra field aborts; missing fields are filled
with the empty string. -/
theorem c6_schema_amended_witness :
    writeResults
      [[("a", .int 1), ("b", .int 2)], [("a", .int 3), ("c", .int 9)]]
      = .error () ∧
    writeResults
      [[("a", .int 1), ("b", .int 2)], [("a", .int 3)]]
      = .ok ([[("a", .int 1), ("b", .int 2)], [("a", .int 3)]].map
          (fun r => (recKeys [("a", PyVal.int 1), ("b", PyVal.int 2)]).map
            (fun k => (recLookup r k).getD (.str "")))) ∧
    writeResults
      [[("a", .int 1), ("b", .int 2)], [("a", .int 3)]]
      = .ok [[.int 1, .int 2], [.int 3, .str ""]] :=
  ⟨(c6_schema_amended _ _).1 (by decide),
   (c6_schema_amended _ _).2 (by decide),
   by decide⟩

/-- C7 counterexample: a problem declaring `blocksworld` whose only
candidate domain file is the synonym-named `blockworld.pddl` one level
up resolves to nothing — the synonym expansion is not retried in the
parent directory, contradicting the claim that it resolves there. -/
theorem c7_parent_synonym_counterexample :
    find_domain_file_for_problem
      [("/bench/sub/pb1.pddl",
        some "(define (problem pb1) (:domain blocksworld) (:goal (on a b)))"),
       ("/bench/blockworld.pddl", some "(define (domain blockworld) (:action pickup))")]
      "/bench/sub/pb1.pddl" = none := by decide

/-- C7 amended: when the variant lookup, the same-directory pattern
lookup and the structural scan all fail, the resolver retries exactly
the conventional pattern list (which contains the bare declared name but
not its synonym expansions) in the parent directory before returning
absent. -/
theorem c7_parent_retry_amended (fs : FS) (pf : String)
    (h1 : lookupVariants fs (dirName pf)
      (mkVariants (read_domain_name_from_file fs pf)) = none)
    (h2 : lookupPatterns fs (dirName pf)
      (mkPatterns (read_domain_name_from_file fs pf) (dirName pf)) = none)
    (h3 : structuralScan fs (dirName pf) pf = none) :
    find_domain_file_for_problem fs pf =
      lookupPatterns fs (dirName (dirName pf))
        (mkPatterns (read_domain_name_from_file fs pf) (dirName pf)) := by
  simp only [find_domain_file_for_problem, h1, h2, h3]

/-- Witness for C7: a declared-name file one level up is found by the
parent retry. -/
theorem c7_parent_retry_amended_witness :
    find_domain_file_for_problem
      [("/bench/sub/pb1.pddl",
        some "(define (problem pb1) (:domain gripper) (:goal (on a b)))"),
       ("/bench/gripper.pddl", some "(define (domain gripper) (:action move))")]
      "/bench/sub/pb1.pddl"
      = lookupPatterns
          [("/bench/sub/pb1.pddl",
            some "(define (problem pb1) (:domain gripper) (:goal (on a b)))"),
           ("/bench/gripper.pddl", some "(define (domain gripper) (:action move))")]
          (dirName (dirName "/bench/sub/pb1.pddl"))
          (mkPatterns (read_domain_name_from_file
            [("/bench/sub/pb1.pddl",
              some "(define (problem pb1) (:domain gripper) (:goal (on a b)))"),
             ("/bench/gripper.pddl", some "(define (domain gripper) (:action move))")]
            "/bench/sub/pb1.pddl") (dirName "/bench/sub/pb1.pddl")) ∧
    find_domain_file_for_problem
      [("/bench/sub/pb1.pddl",
        some "(define (problem pb1) (:domain gripper) (:goal (on a b)))"),
       ("/bench/gripper.pddl", some "(define (domain gripper) (:action move))")]
      "/bench/sub/pb1.pddl" = some "/bench/gripper.pddl" :=
  ⟨c7_parent_retry_amended _ _ (by decide) (by decide) (by decide), by decide⟩

/-- C8: the classifier returns true exactly when the 2000-character
prefix of a readable file contains the goal marker, the define marker
and the token `problem`; a failed read yields false. -/
theorem c8_classifier_contract (fs : FS) (p : String) :
    (is_problem_file fs p = true ↔
      ∃ c, fsRead fs p = some c ∧
        strHasSub ⟨c.data.take 2000⟩ "(:goal" = true ∧
        strHasSub ⟨c.data.take 2000⟩ "(define" = true ∧
        strHasSub ⟨c.data.take 2000⟩ "problem" = true) ∧
    (fsRead fs p = none → is_problem_file fs p = false) := by
  constructor
  · cases h : fsRead fs p with
    | none => simp [is_problem_file, h]
    | some c =>
      simp only [is_problem_file, h, Bool.and_eq_true, Option.some.injEq]
      constructor
      · rintro ⟨⟨hg, hd⟩, hp⟩
        exact ⟨c, rfl, hg, hd, hp⟩
      · rintro ⟨c2, hc2, hg, hd, hp⟩
        cases hc2
        exact ⟨⟨hg, hd⟩, hp⟩
  · intro h
    simp [is_problem_file, h]

/-- Witness for C8: a missing path and an unreadable file classify as
false; a real problem file classifies as true. -/
theorem c8_classifier_contract_witness :
    is_problem_file [] "/missing.pddl" = false ∧
    is_problem_file [("/d/bad.pddl", none)] "/d/bad.pddl" = false ∧
    is_problem_file [("/d/p.pddl", some "(define (problem p) (:goal (on a b)))")]
      "/d/p.pddl" = true :=
  ⟨(c8_classifier_contract [] "/missing.pddl").2 rfl,
   (c8_classifier_contract [("/d/bad.pddl", none)] "/d/bad.pddl").2 rfl,
   (c8_classifier_contract _ "/d/p.pddl").1.mpr
     ⟨_, rfl, by decide, by decide, by decide⟩⟩

/-- C9: every Runner record has the same eight fields in the same order
in all three branches, and any list of records with that key list
persists without triggering the schema-violation abort. -/
theorem c9_schema_homogeneous :
    (∀ (df pf se he : String) (oc : ProcOutcome) (el : ℚ),
      recKeys (run_benchmark df pf se he oc el) = benchFields) ∧
    (∀ records : List Record, (∀ r ∈ records, recKeys r = benchFields) →
      ∃ rows, writeResults records = .ok rows) := by
  constructor
  · intro df pf se he oc el
    cases oc <;> rfl
  · intro records h
    cases records with
    | nil => exact ⟨[], rfl⟩
    | cons r0 rs =>
      refine ⟨_, writerows_ok (recKeys r0) (r0 :: rs) (fun r hr kv hkv => ?_)⟩
      rw [h r0 (List.mem_cons_self r0 rs), ← h r hr]
      exact List.mem_map_of_mem Prod.fst hkv

/-- Witness for C9: a concrete timeout record has the canonical key
list and persists. -/
theorem c9_schema_homogeneous_witness :
    recKeys (run_benchmark "/d/dom.pddl" "/d/pb1.pddl" "astar" "hmax" .timedOut 2)
      = benchFields ∧
    ∃ rows, writeResults
      [run_benchmark "/d/dom.pddl" "/d/pb1.pddl" "astar" "hmax" .timedOut 2]
      = .ok rows :=
  ⟨c9_schema_homogeneous.1 "/d/dom.pddl" "/d/pb1.pddl" "astar" "hmax" .timedOut 2,
   c9_schema_homogeneous.2 _ (fun r hr => by
     rw [List.mem_singleton] at hr
     rw [hr]
     exact c9_schema_homogeneous.1 "/d/dom.pddl" "/d/pb1.pddl" "astar" "hmax" .timedOut 2)⟩

/-- C10: the resolver can return the problem file itself: a problem file
named after its own directory whose declared-name check fails matches
the directory-basename pattern, and only the structural scan excludes
the problem file. -/
theorem c10_resolver_returns_problem_itself :
    is_problem_file
      [("/bench/block/block.pddl",
        some "(define (problem b1) (:domain foo) (:goal (on a b)))")]
      "/bench/block/block.pddl" = true ∧
    read_domain_name_from_file
      [("/bench/block/block.pddl",
        some "(define (problem b1) (:domain foo) (:goal (on a b)))")]
      "/bench/block/block.pddl" = some "foo" ∧
    find_domain_file_for_problem
      [("/bench/block/block.pddl",
        some "(define (problem b1) (:domain foo) (:goal (on a b)))")]
      "/bench/block/block.pddl" = some "/bench/block/block.pddl" := by
  refine ⟨by decide, by decide, by decide⟩

end PddlBench
